import Mathlib

/-!
# Verification of the anonymized-quiz engine (`src/app.py`)

Shallow embedding of the core logic of the offline multiple-choice quiz
application: seed-based cipher decoding, the single-active-question
lifecycle, the answer ledger with its dedup rules, option editing and the
scoring engine.

Modelling conventions:
* database rows become structures, tables become lists of rows;
* `Float` scores become `ℚ` (the claims checked here only involve exact
  additions and the exact boundary comparisons `x < 0.0` / `x < 1.0`);
* timestamps become `Nat` tick values supplied by the caller (`now()`);
* `random.random()` becomes an explicit stream `rng : Nat → ℚ` of draws,
  with the bound `0 ≤ rng k < 1` assumed where a claim needs it;
* the `Seed` table is read-only in every operation studied here, so it is
  passed as a lookup function `getSeed : Nat → Option Nat` mirroring
  `Seed.query.get`;
* each HTTP handler becomes a function from the database state (plus its
  request inputs) to a discriminated result together with the new state.
-/

namespace ManEatingTree

/-- `MAX_SID = 64` from `app.py`. -/
def MAX_SID : Nat := 64

/-- `MIN_SID = 1` from `app.py`. -/
def MIN_SID : Nat := 1

/-- A row of the `Student` table: id and cumulative score
(`created_at` omitted: no claim mentions it). -/
structure Student where
  sid : Nat
  score : ℚ
  deriving Repr, DecidableEq

/-- A row of the `Question` table.  `optionsList` stands for the decoded
`options_json` (the `options()` accessor). -/
structure Question where
  id : Nat
  presetId : Option String
  content : String
  optionsList : List String
  isActive : Bool
  createdAt : Nat
  settledAt : Option Nat
  deriving Repr, DecidableEq

/-- A row of the `Answer` table. -/
structure Answer where
  sid : Nat
  questionId : Nat
  optionIndex : Nat
  code : Nat
  timestamp : Nat
  scoreChange : ℚ
  deriving Repr, DecidableEq

/-- The mutable database state touched by the operations under study. -/
structure DBState where
  students : List Student
  questions : List Question
  answers : List Answer
  deriving Repr, DecidableEq

/-- Failure reasons of `decode_code` (the four `ValueError`s). -/
inductive DecodeError where
  | sidOutOfRange
  | suffixOutOfRange
  | unknownSeed
  | optionIndexOutOfRange
  deriving Repr, DecidableEq

/-- `decode_code(code_int, question)` from `app.py` lines 119-140.
`n` is `len(question.options())`; `getSeed` is `Seed.query.get`.
The subtraction `b - seed.r` is done in `Int`, as in Python. -/
def decode_code (getSeed : Nat → Option Nat) (code_int : Nat) (n : Nat) :
    Except DecodeError (Nat × Nat) :=
  let sid := code_int / 100
  let b := code_int % 100
  if sid < MIN_SID ∨ MAX_SID < sid then .error .sidOutOfRange
  else if b < 1 ∨ 99 < b then .error .suffixOutOfRange
  else
    match getSeed sid with
    | none => .error .unknownSeed
    | some r =>
      let option_index : Int := (b : Int) - (r : Int)
      if option_index < 1 ∨ (n : Int) < option_index then .error .optionIndexOutOfRange
      else .ok (sid, option_index.toNat)

/-- `db.session.query(func.min(Student.score)).scalar()` with the
`None → 0.0` fallback of `ensure_student_exists`. -/
def minScoreOrZero (students : List Student) : ℚ :=
  match students with
  | [] => 0
  | s :: rest => rest.foldl (fun m t => min m t.score) s.score

/-- `ensure_student_exists(sid)` from `app.py` lines 143-155: return the
table unchanged if the student exists, otherwise insert a new row whose
score is the current minimum (0 when the table is empty). -/
def ensure_student_exists (students : List Student) (sid : Nat) : List Student :=
  if students.any (fun s => s.sid == sid) then students
  else students ++ [{ sid := sid, score := minScoreOrZero students }]

/-- One step of `order_by(created_at.desc()).first()`: keep the question
with the greater `created_at`, preferring the earlier row on ties. -/
def pickLater (acc : Option Question) (q : Question) : Option Question :=
  match acc with
  | none => some q
  | some b => if b.createdAt < q.createdAt then some q else some b

/-- `get_active_question()`: the active question with the greatest
`created_at` (ties resolved to the earliest row, matching a stable
descending sort followed by `.first()`). -/
def get_active_question (qs : List Question) : Option Question :=
  (qs.filter (fun q => q.isActive)).foldl pickLater none

/-- Failure reasons of the `submit_code` handler. -/
inductive SubmitError where
  | noActiveQuestion
  | questionAlreadySettled
  | malformedCipher
  | decodeFailed (e : DecodeError)
  | duplicateSubmission
  deriving Repr, DecidableEq

/-- `submit_code` from `app.py` lines 218-262.  Returns the handler
outcome together with the committed state.  `codeInput` is the result of
the `code_raw.isdigit()` / `int(code_raw)` stage (Python library
behavior): `none` for a non-digit payload, `some code_int` otherwise.
Note that `ensure_student_exists` commits the new student row *before*
the duplicate check, exactly as in the source. -/
def submit_code (getSeed : Nat → Option Nat) (st : DBState) (tNow : Nat)
    (codeInput : Option Nat) : Except SubmitError (Nat × Nat) × DBState :=
  match get_active_question st.questions with
  | none => (.error .noActiveQuestion, st)
  | some q =>
    if q.settledAt ≠ none then (.error .questionAlreadySettled, st)
    else
      match codeInput with
      | none => (.error .malformedCipher, st)
      | some code_int =>
        match decode_code getSeed code_int q.optionsList.length with
        | .error e => (.error (.decodeFailed e), st)
        | .ok (sid, option_index) =>
          let students1 := ensure_student_exists st.students sid
          if st.answers.any (fun a => a.questionId == q.id && a.sid == sid) then
            (.error .duplicateSubmission, { st with students := students1 })
          else
            (.ok (sid, option_index),
              { st with
                students := students1,
                answers := st.answers ++
                  [{ sid := sid, questionId := q.id, optionIndex := option_index,
                     code := code_int, timestamp := tNow, scoreChange := 0 }] })

/-- A preset entry as produced by `load_presets`. -/
structure Preset where
  id : String
  content : String
  options : List String
  deriving Repr, DecidableEq

/-- `start_preset` from `app.py` lines 503-525: look the preset up, clear
the `is_active` flag of every active question with a bulk update, then
insert the new question as active and unsettled.  `newQid` stands for the
autoincremented primary key.  Returns `false` (flash + redirect, no
change) when the preset id is unknown. -/
def start_preset (presetsList : List Preset) (presetId : String) (st : DBState)
    (tNow : Nat) (newQid : Nat) : Bool × DBState :=
  match presetsList.find? (fun p => p.id == presetId) with
  | none => (false, st)
  | some preset =>
    let qs := st.questions.map
      (fun q => if q.isActive then { q with isActive := false } else q)
    (true,
      { st with
        questions := qs ++
          [{ id := newQid, presetId := some preset.id, content := preset.content,
             optionsList := preset.options, isActive := true,
             createdAt := tNow, settledAt := none }] })

/-- `settle_question` from `app.py` lines 356-365: reject (flash) when no
question is active; otherwise stamp `settled_at = now()` on the active
question, with no check of its current `settled_at`. -/
def settle_question (st : DBState) (tNow : Nat) : Bool × DBState :=
  match get_active_question st.questions with
  | none => (false, st)
  | some q =>
    (true,
      { st with
        questions := st.questions.map
          (fun q2 => if q2.id == q.id then { q2 with settledAt := some tNow } else q2) })

/-- The answer row of `(question_id, sid)` targeted by deletion and by
per-student scoring. -/
def answerMatches (qid sid : Nat) (a : Answer) : Bool :=
  a.questionId == qid && a.sid == sid

/-- Outcomes of the two delete-submission handlers. -/
inductive DeleteResult where
  | noActiveQuestion
  | questionNotFound
  | malformedSid
  | notFound
  | deleted
  deriving Repr, DecidableEq

/-- `delete_submission` from `app.py` lines 266-287 (the active-question
variant): find the first answer of `(active question, sid)` and delete
that row; every failure leaves the state untouched.  `sidInput` is the
parsed `sid` form field (`none` when not all digits). -/
def delete_submission (st : DBState) (sidInput : Option Nat) : DeleteResult × DBState :=
  match get_active_question st.questions with
  | none => (.noActiveQuestion, st)
  | some q =>
    match sidInput with
    | none => (.malformedSid, st)
    | some sid =>
      match st.answers.find? (answerMatches q.id sid) with
      | none => (.notFound, st)
      | some _ =>
        (.deleted, { st with answers := st.answers.eraseP (answerMatches q.id sid) })

/-- `delete_submission_for_question` from `app.py` lines 290-309: like
`delete_submission` but on an explicit question id (404 when absent). -/
def delete_submission_for_question (st : DBState) (qid : Nat) (sidInput : Option Nat) :
    DeleteResult × DBState :=
  match st.questions.find? (fun q => q.id == qid) with
  | none => (.questionNotFound, st)
  | some q =>
    match sidInput with
    | none => (.malformedSid, st)
    | some sid =>
      match st.answers.find? (answerMatches q.id sid) with
      | none => (.notFound, st)
      | some _ =>
        (.deleted, { st with answers := st.answers.eraseP (answerMatches q.id sid) })

/-- Outcomes of the `edit_options_for_question` handler. -/
inductive EditResult where
  | questionNotFound
  | badOptions
  | shrinkRejected
  | belowMaxUsed
  | updated
  deriving Repr, DecidableEq

/-- The new option list built by `edit_options_for_question` lines
322-332: per-slot replacement (empty input keeps the old text) followed by
appended lines capped so the total never exceeds 10.  `formOpt i` is the
form field `opt{i}` (1-based) after Python's `str.strip` (string-library
behavior, applied before any comparison in the source), so the "blank"
test is equality with `""`; `appendLines` is the `append_options` field
after the `splitlines`/`strip`/drop-blanks pipeline of line 328. -/
def buildNewOptions (oldOptions : List String) (formOpt : Nat → String)
    (appendLines : List String) : List String :=
  let replaced := oldOptions.enum.map
    (fun p => if formOpt (p.1 + 1) = "" then p.2 else formOpt (p.1 + 1))
  if appendLines ≠ [] then
    let remaining : Int := 10 - (replaced.length : Int)
    if 0 < remaining then replaced ++ appendLines.take remaining.toNat else replaced
  else replaced

/-- `func.max(Answer.option_index)` over the question's answers, with the
`None → 0` fallback. -/
def maxUsedIndex (answers : List Answer) (qid : Nat) : Nat :=
  (answers.filter (fun a => a.questionId == qid)).foldl (fun m a => max m a.optionIndex) 0

/-- `edit_options_for_question` from `app.py` lines 312-353: build the new
list, reject a shrink below the current length or below the maximum used
option index, otherwise store the new list on the question. -/
def edit_options_for_question (st : DBState) (qid : Nat) (formOpt : Nat → String)
    (appendLines : List String) : EditResult × DBState :=
  match st.questions.find? (fun q => q.id == qid) with
  | none => (.questionNotFound, st)
  | some q =>
    let oldOptions := q.optionsList
    if oldOptions.length < 1 then (.badOptions, st)
    else
      let newOptions := buildNewOptions oldOptions formOpt appendLines
      if newOptions.length < oldOptions.length then (.shrinkRejected, st)
      else
        let maxUsed := maxUsedIndex st.answers q.id
        if newOptions.length < maxUsed then (.belowMaxUsed, st)
        else
          (.updated,
            { st with
              questions := st.questions.map
                (fun q2 =>
                  if q2.id == q.id then { q2 with optionsList := newOptions } else q2) })

/-- `s = ensure_student_exists(sid); s.score += change`: materialize the
student row if needed, then add `change` to that student's score. -/
def addScore (students : List Student) (sid : Nat) (change : ℚ) : List Student :=
  (ensure_student_exists students sid).map
    (fun s => if s.sid == sid then { s with score := s.score + change } else s)

/-- `a.score_change += change` on the first answer of `(qid, sid)`
(`.first()` of the filtered query), if any. -/
def addChangeToFirstAnswer (answers : List Answer) (qid sid : Nat) (change : ℚ) :
    List Answer :=
  match answers with
  | [] => []
  | a :: rest =>
    if answerMatches qid sid a then
      { a with scoreChange := a.scoreChange + change } :: rest
    else a :: addChangeToFirstAnswer rest qid sid change

/-- The loop of scoring action "A" (per-option fixed, lines 406-410): for
each answer of the question with the matching option index, bump the
student's score and the answer's `score_change` by `change`. -/
def scoreALoop (qid : Nat) (oi : Int) (change : ℚ) :
    List Answer → List Student → List Answer × List Student
  | [], students => ([], students)
  | a :: rest, students =>
    if a.questionId == qid && ((a.optionIndex : Int) == oi) then
      let students1 := addScore students a.sid change
      let next := scoreALoop qid oi change rest students1
      ({ a with scoreChange := a.scoreChange + change } :: next.1, next.2)
    else
      let next := scoreALoop qid oi change rest students
      (a :: next.1, next.2)

/-- The loop of scoring action "C" (per-option probabilistic, lines
443-451): as in action A, but each matching answer consumes one random
draw `rng k` and receives `change1` when `rng k < prob`, else `change2`. -/
def scoreCLoop (qid : Nat) (oi : Int) (prob change1 change2 : ℚ) (rng : Nat → ℚ) :
    List Answer → List Student → Nat → List Answer × List Student
  | [], students, _ => ([], students)
  | a :: rest, students, k =>
    if a.questionId == qid && ((a.optionIndex : Int) == oi) then
      let c := if rng k < prob then change1 else change2
      let students1 := addScore students a.sid c
      let next := scoreCLoop qid oi prob change1 change2 rng rest students1 (k + 1)
      ({ a with scoreChange := a.scoreChange + c } :: next.1, next.2)
    else
      let next := scoreCLoop qid oi prob change1 change2 rng rest students k
      (a :: next.1, next.2)

/-- A scoring request: action type with its form fields.  `option_index`
and `sid` are parsed with Python's `int(...)`, hence `Int`; the money
amounts go through `parse_float` and are taken here already parsed. -/
inductive ScoreAction where
  | A (optionIndex : Int) (change : ℚ)
  | B (sid : Int) (change : ℚ)
  | C (optionIndex : Int) (probPercent : ℚ) (change1 change2 : ℚ)
  | unknown
  deriving Repr, DecidableEq

/-- Outcomes of the `score_actions` handler. -/
inductive ScoreResult where
  | missingQuestionId
  | unknownQuestion
  | invalidOption
  | invalidSid
  | unknownAction
  | applied
  deriving Repr, DecidableEq

/-- `score_actions` from `app.py` lines 368-458: resolve the question,
dispatch on the action type, validate its target (option index in `1..n`,
sid in `1..64`) and apply the corresponding batch of score updates.  Every
rejection happens before any mutation.  `qidInput` is the parsed
`question_id` form field (`none` when missing or not all digits). -/
def score_actions (st : DBState) (qidInput : Option Nat) (action : ScoreAction)
    (rng : Nat → ℚ) : ScoreResult × DBState :=
  match qidInput with
  | none => (.missingQuestionId, st)
  | some qid =>
    match st.questions.find? (fun q => q.id == qid) with
    | none => (.unknownQuestion, st)
    | some q =>
      let n := q.optionsList.length
      match action with
      | .A oi change =>
        if oi < 1 ∨ (n : Int) < oi then (.invalidOption, st)
        else
          let next := scoreALoop q.id oi change st.answers st.students
          (.applied, { st with answers := next.1, students := next.2 })
      | .B sid change =>
        if sid < (MIN_SID : Int) ∨ (MAX_SID : Int) < sid then (.invalidSid, st)
        else
          let students1 := addScore st.students sid.toNat change
          let answers1 := addChangeToFirstAnswer st.answers q.id sid.toNat change
          (.applied, { st with students := students1, answers := answers1 })
      | .C oi probPercent change1 change2 =>
        let prob := max 0 (min 1 (probPercent / 100))
        if oi < 1 ∨ (n : Int) < oi then (.invalidOption, st)
        else
          let next := scoreCLoop q.id oi prob change1 change2 rng st.answers st.students 0
          (.applied, { st with answers := next.1, students := next.2 })
      | .unknown => (.unknownAction, st)

/-! ## Concrete fixtures (used to instantiate the theorems below) -/

/-- The seed table of the spec's worked scenario: r = 5, 10, 20 for
sids 1, 2, 3. -/
def seedW : Nat → Option Nat := fun sid =>
  if sid = 1 then some 5 else if sid = 2 then some 10
  else if sid = 3 then some 20 else none

/-- An active, unsettled three-option question. -/
def qW : Question :=
  { id := 1, presetId := none, content := "q", optionsList := ["a", "b", "c"],
    isActive := true, createdAt := 10, settledAt := none }

/-- The stored answer of student 2 on question 1 (cipher 213, option 3). -/
def aW : Answer :=
  { sid := 2, questionId := 1, optionIndex := 3, code := 213, timestamp := 99,
    scoreChange := 0 }

/-- A state holding `qW` (active) and the answer `aW`. -/
def stW : DBState :=
  { students := [{ sid := 2, score := 0 }], questions := [qW], answers := [aW] }

/-- `qW` already settled at tick 5 (but still flagged active). -/
def qSettledW : Question := { qW with settledAt := some 5 }

/-- Like `stW` but the question is already settled. -/
def stSettledW : DBState :=
  { students := [{ sid := 2, score := 0 }], questions := [qSettledW], answers := [aW] }

/-- A two-option question whose answer table references option index 3
(so any edit must be rejected by the max-used-index guard). -/
def qTwoW : Question :=
  { id := 1, presetId := none, content := "q", optionsList := ["a", "b"],
    isActive := true, createdAt := 10, settledAt := none }

/-- An answer referencing option index 3. -/
def aBigW : Answer :=
  { sid := 2, questionId := 1, optionIndex := 3, code := 0, timestamp := 0,
    scoreChange := 0 }

/-- State for the option-edit rejection instance. -/
def stEditW : DBState := { students := [], questions := [qTwoW], answers := [aBigW] }

/-- A one-entry preset catalog. -/
def presetsW : List Preset := [{ id := "p1", content := "c", options := ["a", "b"] }]

/-- A state with an active question that already carries a settle stamp,
to observe that publishing preserves it. -/
def stPubW : DBState :=
  { students := [],
    questions := [{ id := 1, presetId := none, content := "old",
                    optionsList := ["x"], isActive := true, createdAt := 5,
                    settledAt := some 7 }],
    answers := [] }

/-- A constant random stream strictly inside [0, 1). -/
def rngW : Nat → ℚ := fun _ => 1 / 2

/-- A two-row student table with minimum score 3. -/
def studentsW : List Student := [{ sid := 1, score := 5 }, { sid := 2, score := 3 }]

/-! ## Helper lemmas -/

theorem foldl_min_le_init (l : List Student) (init : ℚ) :
    l.foldl (fun m t => min m t.score) init ≤ init := by
  induction l generalizing init with
  | nil => simp
  | cons a tl ih => exact le_trans (ih _) (min_le_left _ _)

theorem foldl_min_le_mem (l : List Student) (s : Student) :
    ∀ init : ℚ, s ∈ l → l.foldl (fun m t => min m t.score) init ≤ s.score := by
  induction l with
  | nil =>
    intro init hs
    cases hs
  | cons a tl ih =>
    intro init hs
    rcases List.mem_cons.mp hs with h | h
    · subst h
      exact le_trans (foldl_min_le_init tl _) (min_le_right _ _)
    · exact ih _ h

theorem foldl_min_attained (l : List Student) (init : ℚ) :
    l.foldl (fun m t => min m t.score) init = init ∨
      ∃ s ∈ l, l.foldl (fun m t => min m t.score) init = s.score := by
  induction l generalizing init with
  | nil => exact Or.inl rfl
  | cons a tl ih =>
    rcases ih (min init a.score) with h | ⟨s, hs, hval⟩
    · rcases le_total init a.score with hle | hle
      · left
        simpa [min_eq_left hle] using h
      · right
        refine ⟨a, List.mem_cons_self _ _, ?_⟩
        simpa [min_eq_right hle] using h
    · exact Or.inr ⟨s, List.mem_cons_of_mem _ hs, hval⟩

/-! ## Claims -/

/-- C1: for every student id `sid ∈ [1,64]` with seed offset `r` and every
`option_index ∈ [1,N]` (`N` the active question's option count, at most
10), decoding the cipher `sid*100 + r + option_index` returns exactly
`(sid, option_index)`. -/
theorem C1_decode_roundtrip (getSeed : Nat → Option Nat) (sid r i n : Nat)
    (hsid1 : MIN_SID ≤ sid) (hsid2 : sid ≤ MAX_SID) (hr : r ≤ 89)
    (hi1 : 1 ≤ i) (hin : i ≤ n) (hn : n ≤ 10)
    (hseed : getSeed sid = some r) :
    decode_code getSeed (sid * 100 + r + i) n = .ok (sid, i) := by
  have hdiv : (sid * 100 + r + i) / 100 = sid := by omega
  have hmod : (sid * 100 + r + i) % 100 = r + i := by omega
  have hsd : ¬(sid < 1 ∨ 64 < sid) := by
    simp only [MIN_SID, MAX_SID] at hsid1 hsid2
    omega
  have hb : ¬(r + i < 1 ∨ 99 < r + i) := by omega
  have hoi : ¬(((r + i : Nat) : Int) - (r : Int) < 1 ∨
      (n : Int) < ((r + i : Nat) : Int) - (r : Int)) := by
    push_cast
    omega
  simp only [decode_code, hdiv, hmod, MIN_SID, MAX_SID, if_neg hsd, if_neg hb, hseed,
    if_neg hoi]
  congr 1
  ext
  · rfl
  · push_cast
    omega

theorem C1_decode_roundtrip_witness :
    decode_code seedW (2 * 100 + 10 + 3) 3 = .ok (2, 3) :=
  C1_decode_roundtrip seedW 2 10 3 3 (by decide) (by decide) (by decide)
    (by decide) (by decide) (by decide) (by decide)

/-- C6: a lazily created student row is appended with initial score equal
to the current minimum score (0 when no student exists), and the existing
rows are untouched. -/
theorem C6_lazy_student_min_score (students : List Student) (sid : Nat)
    (habs : students.any (fun s => s.sid == sid) = false) :
    ensure_student_exists students sid =
      students ++ [{ sid := sid, score := minScoreOrZero students }] ∧
    (students = [] → minScoreOrZero students = 0) ∧
    (∀ s ∈ students, minScoreOrZero students ≤ s.score) ∧
    (students ≠ [] → ∃ s ∈ students, minScoreOrZero students = s.score) := by
  refine ⟨?_, ?_, ?_, ?_⟩
  · simp [ensure_student_exists, habs]
  · intro h
    subst h
    rfl
  · intro s hs
    match students, hs with
    | a :: tl, hs =>
      rcases List.mem_cons.mp hs with h | h
      · subst h
        exact foldl_min_le_init tl _
      · exact foldl_min_le_mem tl _ _ h
  · intro hne
    match students, hne with
    | a :: tl, _ =>
      rcases foldl_min_attained tl a.score with h | ⟨s, hs, hval⟩
      · exact ⟨a, List.mem_cons_self _ _, h⟩
      · exact ⟨s, List.mem_cons_of_mem _ hs, hval⟩

theorem C6_lazy_student_min_score_witness :
    ensure_student_exists studentsW 7 =
      studentsW ++ [{ sid := 7, score := minScoreOrZero studentsW }] ∧
    (studentsW = [] → minScoreOrZero studentsW = 0) ∧
    (∀ s ∈ studentsW, minScoreOrZero studentsW ≤ s.score) ∧
    (studentsW ≠ [] → ∃ s ∈ studentsW, minScoreOrZero studentsW = s.score) :=
  C6_lazy_student_min_score studentsW 7 (by decide)

/-- C2: when an `Answer` already exists for `(sid, question)`, a second
submission decoding to that pair is rejected with `duplicateSubmission`,
and afterwards exactly one `Answer` row for the pair persists — the
answers table is completely unchanged. -/
theorem C2_duplicate_submission_rejected (getSeed : Nat → Option Nat) (st : DBState)
    (tNow : Nat) (q : Question) (code_int sid oi : Nat)
    (hq : get_active_question st.questions = some q)
    (hset : q.settledAt = none)
    (hdec : decode_code getSeed code_int q.optionsList.length = .ok (sid, oi))
    (hone : st.answers.countP (fun a => a.questionId == q.id && a.sid == sid) = 1) :
    (submit_code getSeed st tNow (some code_int)).1 = .error .duplicateSubmission ∧
    (submit_code getSeed st tNow (some code_int)).2.answers = st.answers ∧
    (submit_code getSeed st tNow (some code_int)).2.answers.countP
      (fun a => a.questionId == q.id && a.sid == sid) = 1 := by
  have hdup : st.answers.any (fun a => a.questionId == q.id && a.sid == sid) = true := by
    have hpos : 0 < st.answers.countP (fun a => a.questionId == q.id && a.sid == sid) := by
      omega
    rcases List.countP_pos_iff.mp hpos with ⟨a, ha, hpa⟩
    exact List.any_eq_true.mpr ⟨a, ha, hpa⟩
  refine ⟨?_, ?_, ?_⟩ <;>
    simp [submit_code, hq, hset, hdec, hdup, hone]

theorem C2_duplicate_submission_rejected_witness :
    (submit_code seedW stW 100 (some 213)).1 = .error .duplicateSubmission ∧
    (submit_code seedW stW 100 (some 213)).2.answers = stW.answers ∧
    (submit_code seedW stW 100 (some 213)).2.answers.countP
      (fun a => a.questionId == qW.id && a.sid == 2) = 1 :=
  C2_duplicate_submission_rejected seedW stW 100 qW 213 2 3
    (by rfl) (by rfl) (by rfl) (by rfl)

/-- C4: a cipher whose high part lies outside `[1,64]` decodes to
`sidOutOfRange` no matter what the low part is (the sid check runs
first); a cipher with in-range sid whose low part lies outside `[1,99]`
decodes to `suffixOutOfRange`; and a failed decode inside `submit_code`
leaves the state exactly as it was. -/
theorem C4_decode_failure_order_and_purity (getSeed : Nat → Option Nat)
    (code_int n : Nat) (st : DBState) (tNow : Nat)
    (q : Question) (e : DecodeError) :
    (code_int / 100 < MIN_SID ∨ MAX_SID < code_int / 100 →
      decode_code getSeed code_int n = .error .sidOutOfRange) ∧
    (MIN_SID ≤ code_int / 100 → code_int / 100 ≤ MAX_SID →
      (code_int % 100 < 1 ∨ 99 < code_int % 100) →
      decode_code getSeed code_int n = .error .suffixOutOfRange) ∧
    (get_active_question st.questions = some q → q.settledAt = none →
      decode_code getSeed code_int q.optionsList.length = .error e →
      submit_code getSeed st tNow (some code_int) = (.error (.decodeFailed e), st)) := by
  refine ⟨?_, ?_, ?_⟩
  · intro h
    simp only [decode_code]
    rw [if_pos h]
  · intro h1 h2 h3
    have hs : ¬(code_int / 100 < MIN_SID ∨ MAX_SID < code_int / 100) := by
      omega
    simp only [decode_code]
    rw [if_neg hs, if_pos h3]
  · intro hq hset hdec
    simp [submit_code, hq, hset, hdec]

theorem C4_decode_failure_order_and_purity_witness :
    decode_code seedW 9913 3 = .error .sidOutOfRange ∧
    decode_code seedW 6400 3 = .error .suffixOutOfRange ∧
    submit_code seedW stW 0 (some 9913) =
      (.error (.decodeFailed .sidOutOfRange), stW) := by
  refine ⟨?_, ?_, ?_⟩
  · exact (C4_decode_failure_order_and_purity seedW 9913 3 stW 0 qW
      .sidOutOfRange).1 (by decide)
  · exact (C4_decode_failure_order_and_purity seedW 6400 3 stW 0 qW
      .suffixOutOfRange).2.1 (by decide) (by decide) (by decide)
  · exact (C4_decode_failure_order_and_purity seedW 9913 3 stW 0 qW
      .sidOutOfRange).2.2 (by rfl) (by rfl) (by rfl)

/-- C3: after a successful publish, every previously stored question is
inactive with its settle timestamp untouched, the newly appended question
is the single active one and carries no settle timestamp. -/
theorem C3_publish_single_active (presetsList : List Preset) (presetId : String)
    (st : DBState) (tNow : Nat) (newQid : Nat) (preset : Preset)
    (hfind : presetsList.find? (fun p => p.id == presetId) = some preset) :
    (start_preset presetsList presetId st tNow newQid).1 = true ∧
    (start_preset presetsList presetId st tNow newQid).2.questions.map
        (fun q => q.settledAt) =
      st.questions.map (fun q => q.settledAt) ++ [none] ∧
    (start_preset presetsList presetId st tNow newQid).2.questions.map
        (fun q => q.isActive) =
      st.questions.map (fun _ => false) ++ [true] ∧
    (start_preset presetsList presetId st tNow newQid).2.questions.countP
        (fun q => q.isActive) = 1 ∧
    (start_preset presetsList presetId st tNow newQid).2.questions.getLast? =
      some { id := newQid, presetId := some preset.id, content := preset.content,
             optionsList := preset.options, isActive := true,
             createdAt := tNow, settledAt := none } := by
  refine ⟨?_, ?_, ?_, ?_, ?_⟩
  · simp [start_preset, hfind]
  · simp only [start_preset, hfind, List.map_append, List.map_map]
    congr 1
    apply List.map_congr_left
    intro q _
    by_cases h : q.isActive <;> simp [h]
  · simp only [start_preset, hfind, List.map_append, List.map_map]
    congr 1
    apply List.map_congr_left
    intro q _
    by_cases h : q.isActive <;> simp [h]
  · simp only [start_preset, hfind, List.countP_append]
    have h0 : (st.questions.map
        (fun q => if q.isActive then { q with isActive := false } else q)).countP
        (fun q => q.isActive) = 0 := by
      rw [List.countP_eq_zero]
      intro a ha
      rcases List.mem_map.mp ha with ⟨q, _, rfl⟩
      by_cases h : q.isActive <;> simp [h]
    simp [h0]
  · simp [start_preset, hfind]

theorem C3_publish_single_active_witness :
    (start_preset presetsW "p1" stPubW 20 2).1 = true ∧
    (start_preset presetsW "p1" stPubW 20 2).2.questions.map (fun q => q.settledAt) =
      stPubW.questions.map (fun q => q.settledAt) ++ [none] ∧
    (start_preset presetsW "p1" stPubW 20 2).2.questions.map (fun q => q.isActive) =
      stPubW.questions.map (fun _ => false) ++ [true] ∧
    (start_preset presetsW "p1" stPubW 20 2).2.questions.countP
      (fun q => q.isActive) = 1 ∧
    (start_preset presetsW "p1" stPubW 20 2).2.questions.getLast? =
      some { id := 2, presetId := some "p1", content := "c",
             optionsList := ["a", "b"], isActive := true,
             createdAt := 20, settledAt := none } :=
  C3_publish_single_active presetsW "p1" stPubW 20 2
    { id := "p1", content := "c", options := ["a", "b"] } (by decide)

/-- C7: an option edit whose resulting list would be shorter than the
current list, or shorter than the maximum option index referenced by a
stored answer, is rejected and the state (in particular the question's
option list) is left completely unchanged. -/
theorem C7_edit_shrink_rejected (st : DBState) (qid : Nat) (formOpt : Nat → String)
    (appendLines : List String) (q : Question)
    (hq : st.questions.find? (fun q2 => q2.id == qid) = some q)
    (hrej : (buildNewOptions q.optionsList formOpt appendLines).length <
        q.optionsList.length ∨
      (buildNewOptions q.optionsList formOpt appendLines).length <
        maxUsedIndex st.answers q.id) :
    (edit_options_for_question st qid formOpt appendLines).2 = st ∧
    ((edit_options_for_question st qid formOpt appendLines).1 = .badOptions ∨
      (edit_options_for_question st qid formOpt appendLines).1 = .shrinkRejected ∨
      (edit_options_for_question st qid formOpt appendLines).1 = .belowMaxUsed) := by
  simp only [edit_options_for_question, hq]
  by_cases h0 : q.optionsList.length < 1
  · rw [if_pos h0]
    exact ⟨rfl, Or.inl rfl⟩
  · rw [if_neg h0]
    by_cases h1 : (buildNewOptions q.optionsList formOpt appendLines).length <
        q.optionsList.length
    · rw [if_pos h1]
      exact ⟨rfl, Or.inr (Or.inl rfl)⟩
    · rw [if_neg h1]
      have h2 : (buildNewOptions q.optionsList formOpt appendLines).length <
          maxUsedIndex st.answers q.id := by
        rcases hrej with h | h
        · exact absurd h h1
        · exact h
      rw [if_pos h2]
      exact ⟨rfl, Or.inr (Or.inr rfl)⟩

theorem C7_edit_shrink_rejected_witness :
    (edit_options_for_question stEditW 1 (fun _ => "") []).2 = stEditW ∧
    ((edit_options_for_question stEditW 1 (fun _ => "") []).1 = .badOptions ∨
      (edit_options_for_question stEditW 1 (fun _ => "") []).1 = .shrinkRejected ∨
      (edit_options_for_question stEditW 1 (fun _ => "") []).1 = .belowMaxUsed) :=
  C7_edit_shrink_rejected stEditW 1 (fun _ => "") [] qTwoW (by rfl)
    (Or.inr (by decide))

/-- C8: deleting an answer (through either deletion endpoint, and with no
condition on the question's settlement state) removes exactly the first
answer row of `(question, sid)`: the student table and the question table
are untouched, and every remaining answer row is one of the original
rows, unmodified. -/
theorem C8_delete_only_answer (st : DBState) (qid sid : Nat) (q qa : Question)
    (a aa : Answer) :
    (st.questions.find? (fun q2 => q2.id == qid) = some q →
      st.answers.find? (answerMatches q.id sid) = some a →
      delete_submission_for_question st qid (some sid) =
        (.deleted, { st with answers := st.answers.eraseP (answerMatches q.id sid) }) ∧
      ∀ a2 ∈ (delete_submission_for_question st qid (some sid)).2.answers,
        a2 ∈ st.answers) ∧
    (get_active_question st.questions = some qa →
      st.answers.find? (answerMatches qa.id sid) = some aa →
      delete_submission st (some sid) =
        (.deleted, { st with answers := st.answers.eraseP (answerMatches qa.id sid) }) ∧
      ∀ a2 ∈ (delete_submission st (some sid)).2.answers, a2 ∈ st.answers) := by
  constructor
  · intro hq hfound
    have heq : delete_submission_for_question st qid (some sid) =
        (.deleted, { st with answers := st.answers.eraseP (answerMatches q.id sid) }) := by
      simp [delete_submission_for_question, hq, hfound]
    refine ⟨heq, ?_⟩
    intro a2 ha2
    rw [heq] at ha2
    exact (List.eraseP_sublist st.answers).subset ha2
  · intro hqa hfound
    have heq : delete_submission st (some sid) =
        (.deleted, { st with answers := st.answers.eraseP (answerMatches qa.id sid) }) := by
      simp [delete_submission, hqa, hfound]
    refine ⟨heq, ?_⟩
    intro a2 ha2
    rw [heq] at ha2
    exact (List.eraseP_sublist st.answers).subset ha2

theorem C8_delete_only_answer_witness :
    (delete_submission_for_question stSettledW 1 (some 2) =
      (.deleted,
        { stSettledW with
          answers := stSettledW.answers.eraseP (answerMatches qSettledW.id 2) }) ∧
      ∀ a2 ∈ (delete_submission_for_question stSettledW 1 (some 2)).2.answers,
        a2 ∈ stSettledW.answers) ∧
    (delete_submission stSettledW (some 2) =
      (.deleted,
        { stSettledW with
          answers := stSettledW.answers.eraseP (answerMatches qSettledW.id 2) }) ∧
      ∀ a2 ∈ (delete_submission stSettledW (some 2)).2.answers,
        a2 ∈ stSettledW.answers) :=
  ⟨(C8_delete_only_answer stSettledW 1 2 qSettledW qSettledW aW aW).1
      (by rfl) (by rfl),
    (C8_delete_only_answer stSettledW 1 2 qSettledW qSettledW aW aW).2
      (by rfl) (by rfl)⟩

/-- Folding `pickLater` from a present candidate never loses it. -/
theorem foldl_pickLater_ne_none (l : List Question) :
    ∀ b : Question, l.foldl pickLater (some b) ≠ none := by
  induction l with
  | nil =>
    intro b
    simp
  | cons a tl ih =>
    intro b
    simp only [List.foldl, pickLater]
    by_cases h : b.createdAt < a.createdAt
    · rw [if_pos h]
      exact ih a
    · rw [if_neg h]
      exact ih b

/-- `get_active_question` returns `none` exactly when no question is
active. -/
theorem get_active_question_none_iff (qs : List Question) :
    get_active_question qs = none ↔ ∀ q ∈ qs, q.isActive = false := by
  constructor
  · intro h q hq
    by_contra hne
    have hact : q.isActive = true := by
      cases hqa : q.isActive
      · exact absurd hqa hne
      · rfl
    have hqf : q ∈ qs.filter (fun q => q.isActive) :=
      List.mem_filter.mpr ⟨hq, by simp [hact]⟩
    unfold get_active_question at h
    cases hf : qs.filter (fun q => q.isActive) with
    | nil =>
      rw [hf] at hqf
      cases hqf
    | cons a tl =>
      rw [hf] at h
      simp only [List.foldl, pickLater] at h
      exact foldl_pickLater_ne_none tl a h
  · intro h
    unfold get_active_question
    have hnil : qs.filter (fun q => q.isActive) = [] := by
      apply List.filter_eq_nil_iff.mpr
      intro a ha
      simp [h a ha]
    rw [hnil]
    rfl

/-- The question selected by `get_active_question` is an active member of
the table. -/
theorem get_active_question_mem (qs : List Question) (q : Question)
    (h : get_active_question qs = some q) : q ∈ qs ∧ q.isActive = true := by
  have key : ∀ (l : List Question) (acc : Option Question) (q : Question),
      l.foldl pickLater acc = some q →
      acc = some q ∨ q ∈ l := by
    intro l
    induction l with
    | nil =>
      intro acc q h
      exact Or.inl h
    | cons a tl ih =>
      intro acc q h
      rcases ih _ _ h with hacc | hmem
      · cases acc with
        | none =>
          simp only [pickLater] at hacc
          cases hacc
          exact Or.inr (List.mem_cons_self _ _)
        | some b =>
          simp only [pickLater] at hacc
          by_cases hlt : b.createdAt < a.createdAt
          · rw [if_pos hlt] at hacc
            cases hacc
            exact Or.inr (List.mem_cons_self _ _)
          · rw [if_neg hlt] at hacc
            exact Or.inl hacc
      · exact Or.inr (List.mem_cons_of_mem _ hmem)
  rcases key _ _ _ h with hacc | hmem
  · cases hacc
  · have := List.mem_filter.mp hmem
    exact ⟨this.1, by simpa using this.2⟩

/-- C10: settling rejects exactly when no question is active; with an
active question it always succeeds, stamping `settledAt := some tNow` on
that question — in particular an already-settled active question is
re-stamped rather than rejected. -/
theorem C10_settle_overwrites (st : DBState) (tNow : Nat) :
    ((settle_question st tNow).1 = false ↔
      ∀ q ∈ st.questions, q.isActive = false) ∧
    (∀ q, get_active_question st.questions = some q →
      settle_question st tNow =
        (true,
          { st with
            questions := st.questions.map
              (fun q2 =>
                if q2.id == q.id then { q2 with settledAt := some tNow } else q2) })) ∧
    (∀ q t0, get_active_question st.questions = some q → q.settledAt = some t0 →
      (settle_question st tNow).1 = true ∧
      { q with settledAt := some tNow } ∈ (settle_question st tNow).2.questions) := by
  refine ⟨?_, ?_, ?_⟩
  · rw [← get_active_question_none_iff]
    cases hga : get_active_question st.questions with
    | none => simp [settle_question, hga]
    | some q => simp [settle_question, hga]
  · intro q hga
    simp [settle_question, hga]
  · intro q t0 hga hst
    have hmem := (get_active_question_mem st.questions q hga).1
    constructor
    · simp [settle_question, hga]
    · simp only [settle_question, hga]
      refine List.mem_map.mpr ⟨q, hmem, ?_⟩
      simp

theorem C10_settle_overwrites_witness :
    ((settle_question stSettledW 42).1 = false ↔
      ∀ q ∈ stSettledW.questions, q.isActive = false) ∧
    (settle_question stSettledW 42 =
      (true,
        { stSettledW with
          questions := stSettledW.questions.map
            (fun q2 =>
              if q2.id == qSettledW.id then { q2 with settledAt := some 42 }
              else q2) })) ∧
    ((settle_question stSettledW 42).1 = true ∧
      { qSettledW with settledAt := some 42 } ∈
        (settle_question stSettledW 42).2.questions) :=
  ⟨(C10_settle_overwrites stSettledW 42).1,
    (C10_settle_overwrites stSettledW 42).2.1 qSettledW (by rfl),
    (C10_settle_overwrites stSettledW 42).2.2 qSettledW 5 (by rfl) (by rfl)⟩

/-- When every random draw falls below the success threshold, the
probabilistic loop coincides with the fixed loop at `change1`. -/
theorem scoreCLoop_all_hit (qid : Nat) (oi : Int) (prob c1 c2 : ℚ) (rng : Nat → ℚ)
    (hall : ∀ j, rng j < prob) (ans : List Answer) :
    ∀ (students : List Student) (k : Nat),
      scoreCLoop qid oi prob c1 c2 rng ans students k =
        scoreALoop qid oi c1 ans students := by
  induction ans with
  | nil =>
    intro students k
    rfl
  | cons a rest ih =>
    intro students k
    by_cases h : (a.questionId == qid && ((a.optionIndex : Int) == oi)) = true
    · simp only [scoreCLoop, scoreALoop, if_pos h, if_pos (hall k), ih]
    · simp only [scoreCLoop, scoreALoop, if_neg h, ih]

/-- When no random draw falls below the success threshold, the
probabilistic loop coincides with the fixed loop at `change2`. -/
theorem scoreCLoop_none_hit (qid : Nat) (oi : Int) (prob c1 c2 : ℚ) (rng : Nat → ℚ)
    (hall : ∀ j, ¬rng j < prob) (ans : List Answer) :
    ∀ (students : List Student) (k : Nat),
      scoreCLoop qid oi prob c1 c2 rng ans students k =
        scoreALoop qid oi c2 ans students := by
  induction ans with
  | nil =>
    intro students k
    rfl
  | cons a rest ih =>
    intro students k
    by_cases h : (a.questionId == qid && ((a.optionIndex : Int) == oi)) = true
    · simp only [scoreCLoop, scoreALoop, if_pos h, if_neg (hall k), ih]
    · simp only [scoreCLoop, scoreALoop, if_neg h, ih]

/-- C5: per-option probabilistic scoring is deterministic at the boundary
probabilities: with 0% the whole action behaves exactly like the fixed
per-option action at `delta2` for every random stream in [0,1), and with
100% exactly like the fixed action at `delta1`. -/
theorem C5_boundary_probabilities_deterministic (st : DBState)
    (qidInput : Option Nat) (oi : Int) (c1 c2 : ℚ) (rng : Nat → ℚ)
    (hrng : ∀ k, 0 ≤ rng k ∧ rng k < 1) :
    score_actions st qidInput (.C oi 0 c1 c2) rng =
      score_actions st qidInput (.A oi c2) rng ∧
    score_actions st qidInput (.C oi 100 c1 c2) rng =
      score_actions st qidInput (.A oi c1) rng := by
  have hprob0 : max (0 : ℚ) (min 1 ((0 : ℚ) / 100)) = 0 := by norm_num
  have hprob1 : max (0 : ℚ) (min 1 ((100 : ℚ) / 100)) = 1 := by norm_num
  constructor
  · cases qidInput with
    | none => rfl
    | some qid =>
      cases hfind : st.questions.find? (fun q => q.id == qid) with
      | none => simp [score_actions, hfind]
      | some q =>
        simp only [score_actions, hfind]
        by_cases hoi : oi < 1 ∨ ((q.optionsList.length : Int) < oi)
        · rw [if_pos hoi, if_pos hoi]
        · rw [if_neg hoi, if_neg hoi, hprob0,
            scoreCLoop_none_hit q.id oi 0 c1 c2 rng
              (fun j => not_lt.mpr (hrng j).1) st.answers st.students 0]
  · cases qidInput with
    | none => rfl
    | some qid =>
      cases hfind : st.questions.find? (fun q => q.id == qid) with
      | none => simp [score_actions, hfind]
      | some q =>
        simp only [score_actions, hfind]
        by_cases hoi : oi < 1 ∨ ((q.optionsList.length : Int) < oi)
        · rw [if_pos hoi, if_pos hoi]
        · rw [if_neg hoi, if_neg hoi, hprob1,
            scoreCLoop_all_hit q.id oi 1 c1 c2 rng
              (fun j => (hrng j).2) st.answers st.students 0]

theorem C5_boundary_probabilities_deterministic_witness :
    score_actions stW (some 1) (.C 3 0 5 7) rngW =
      score_actions stW (some 1) (.A 3 7) rngW ∧
    score_actions stW (some 1) (.C 3 100 5 7) rngW =
      score_actions stW (some 1) (.A 3 5) rngW :=
  C5_boundary_probabilities_deterministic stW (some 1) 3 5 7 rngW
    (fun _ => ⟨by norm_num [rngW], by norm_num [rngW]⟩)

/-- C9: each scoring action rejects an invalid target — unknown question
id, option index outside `[1,N]`, or student id outside `[1,64]` — with a
structured outcome and returns the state exactly unchanged (no student
row, score or answer delta is touched). -/
theorem C9_score_invalid_target_noop (st : DBState) (rng : Nat → ℚ)
    (qid1 qid2 : Nat) (act : ScoreAction) (q : Question) (oi sid : Int)
    (c pp c1 c2 : ℚ) :
    (st.questions.find? (fun q2 => q2.id == qid1) = none →
      score_actions st (some qid1) act rng = (.unknownQuestion, st)) ∧
    (st.questions.find? (fun q2 => q2.id == qid2) = some q →
      (oi < 1 ∨ (q.optionsList.length : Int) < oi) →
      score_actions st (some qid2) (.A oi c) rng = (.invalidOption, st) ∧
      score_actions st (some qid2) (.C oi pp c1 c2) rng = (.invalidOption, st)) ∧
    (st.questions.find? (fun q2 => q2.id == qid2) = some q →
      (sid < (MIN_SID : Int) ∨ (MAX_SID : Int) < sid) →
      score_actions st (some qid2) (.B sid c) rng = (.invalidSid, st)) := by
  refine ⟨?_, ?_, ?_⟩
  · intro hfind
    cases act <;> simp [score_actions, hfind]
  · intro hfind hoi
    constructor
    · simp only [score_actions, hfind]
      rw [if_pos hoi]
    · simp only [score_actions, hfind]
      rw [if_pos hoi]
  · intro hfind hsid
    simp only [score_actions, hfind]
    rw [if_pos hsid]

theorem C9_score_invalid_target_noop_witness :
    score_actions stW (some 99) (.A 1 2) rngW = (.unknownQuestion, stW) ∧
    score_actions stW (some 1) (.A 0 2) rngW = (.invalidOption, stW) ∧
    score_actions stW (some 1) (.C 0 50 1 2) rngW = (.invalidOption, stW) ∧
    score_actions stW (some 1) (.B 0 2) rngW = (.invalidSid, stW) :=
  ⟨(C9_score_invalid_target_noop stW rngW 99 1 (.A 1 2) qW 0 0 2 50 1 2).1 (by rfl),
    ((C9_score_invalid_target_noop stW rngW 99 1 (.A 1 2) qW 0 0 2 50 1 2).2.1
      (by rfl) (Or.inl (by decide))).1,
    ((C9_score_invalid_target_noop stW rngW 99 1 (.A 1 2) qW 0 0 2 50 1 2).2.1
      (by rfl) (Or.inl (by decide))).2,
    (C9_score_invalid_target_noop stW rngW 99 1 (.A 1 2) qW 0 0 2 50 1 2).2.2
      (by rfl) (Or.inl (by decide))⟩

end ManEatingTree
